import Mathlib

/-!
A shallow embedding of the session supervisor and update-distribution
pipeline of the real-time crypto price streamer
(`backend/src/price-streamer.ts`, `backend/src/price-service.ts`).

Modelling conventions:
* JavaScript strings are Lean `String`s; the JS `String` methods used by the
  source (`trim`, `toUpperCase`, suffix regex tests) are re-implemented over
  `String.data` (ASCII semantics, which is the alphabet the program works in).
* JS numbers are embedded as `ℚ`; the claims settled here concern exact
  zero / non-zero values and skipped updates, on which `ℚ` and IEEE doubles
  agree (`x - x = 0`, the `prev !== 0` guard, and NaN-ness of `parseFloat`).
* The JS `Map<string, PageState>` is an association list built only through
  `alSet` / `alErase`, mirroring `Map.set` / `Map.delete`.
* Playwright I/O is represented by oracles: records stating how each external
  call (open page, navigate, selector probes, JSON-LD scan) would have turned
  out.  Thrown I/O failures surface as `Except.error`; values the page
  produced surface as oracle fields.  Performed side effects are recorded in
  an action trace (`Act`).
-/

/-! ## JS string primitives used by the source -/

/-- JS whitespace for `String.prototype.trim` (ASCII subset). -/
def jsIsWS (c : Char) : Bool :=
  c = ' ' || c = '\t' || c = '\n' || c = '\r' || c = '\x0b' || c = '\x0c'

/-- Model of `raw.trim()`. -/
def jsTrim (s : String) : String :=
  ⟨((s.data.dropWhile jsIsWS).reverse.dropWhile jsIsWS).reverse⟩

/-- ASCII upcase of one character. -/
def asciiUpper (c : Char) : Char :=
  if c.isLower then Char.ofNat (c.toNat - 32) else c

/-- Model of `s.toUpperCase()` (ASCII range, the program's alphabet). -/
def jsUpper (s : String) : String := ⟨s.data.map asciiUpper⟩

/-- `l` ends with `suf` (model of a `X$` regex test / `endsWith`). -/
def endsWithL (l suf : List Char) : Bool :=
  suf == l.drop (l.length - suf.length)

/-- A character allowed by the `[A-Z0-9]` class (with the `i` flag). -/
def isTickerChar (c : Char) : Bool := c.isAlpha || c.isDigit

/-- Does the uppercased string split as `core ++ suf` with `core` being 3–15
alphanumeric characters?  One disjunct of `BASIC_TICKER_RE`. -/
def coreWithSuffix (u : List Char) (suf : List Char) : Bool :=
  endsWithL u suf &&
    (let k := u.length - suf.length
     decide (3 ≤ k) && decide (k ≤ 15) && (u.take k).all isTickerChar)

/-- Model of `BASIC_TICKER_RE = /^[A-Z0-9]{3,15}(USDT|USD)?$/i` applied via
`.test`; the optional group contributes the three suffix alternatives. -/
def basicTickerTest (s : String) : Bool :=
  let u := (jsUpper s).data
  coreWithSuffix u [] || coreWithSuffix u ['U', 'S', 'D'] ||
    coreWithSuffix u ['U', 'S', 'D', 'T']

/-- Model of `normalizeSymbol`: trim, uppercase, and append `USDT` unless the
string already ends in `USDT` or `USD` (the `/USDT$|USD$/` test). -/
def normalizeSymbol (raw : String) : String :=
  let s := jsUpper (jsTrim raw)
  if endsWithL s.data ['U', 'S', 'D', 'T'] || endsWithL s.data ['U', 'S', 'D'] then s
  else s ++ "USDT"

/-! ## Association-list model of the JS `Map` -/

/-- Lookup, model of `Map.get` / `Map.has`. -/
def alFind {α β : Type} [DecidableEq α] : List (α × β) → α → Option β
  | [], _ => none
  | kv :: t, k => if kv.1 = k then some kv.2 else alFind t k

/-- Model of `Map.set`: replace the entry in place, append if absent. -/
def alSet {α β : Type} [DecidableEq α] : List (α × β) → α → β → List (α × β)
  | [], k, v => [(k, v)]
  | kv :: t, k, v => if kv.1 = k then (k, v) :: t else kv :: alSet t k v

/-- Model of `Map.delete`. -/
def alErase {α β : Type} [DecidableEq α] : List (α × β) → α → List (α × β)
  | [], _ => []
  | kv :: t, k => if kv.1 = k then alErase t k else kv :: alErase t k

/-- The key set (in insertion order), model of `Map.keys()`. -/
def alKeys {α β : Type} (l : List (α × β)) : List α := l.map Prod.fst

theorem alFind_alSet_self {α β : Type} [DecidableEq α]
    (l : List (α × β)) (k : α) (v : β) : alFind (alSet l k v) k = some v := by
  induction l with
  | nil => simp [alSet, alFind]
  | cons kv t ih =>
    by_cases h : kv.1 = k
    · simp [alSet, alFind, h]
    · simp [alSet, alFind, h, ih]

theorem alFind_alSet_ne {α β : Type} [DecidableEq α]
    (l : List (α × β)) (k j : α) (v : β) (h : j ≠ k) :
    alFind (alSet l k v) j = alFind l j := by
  induction l with
  | nil => simp [alSet, alFind, Ne.symm h]
  | cons kv t ih =>
    by_cases hk : kv.1 = k
    · simp [alSet, alFind, hk, Ne.symm h]
    · simp [alSet, alFind, hk, ih]

theorem alFind_alErase_self {α β : Type} [DecidableEq α]
    (l : List (α × β)) (k : α) : alFind (alErase l k) k = none := by
  induction l with
  | nil => simp [alErase, alFind]
  | cons kv t ih =>
    by_cases h : kv.1 = k
    · simp [alErase, h, ih]
    · simp [alErase, alFind, h, ih]

theorem alFind_alErase_ne {α β : Type} [DecidableEq α]
    (l : List (α × β)) (k j : α) (h : j ≠ k) :
    alFind (alErase l k) j = alFind l j := by
  induction l with
  | nil => simp [alErase]
  | cons kv t ih =>
    by_cases hk : kv.1 = k
    · simp [alErase, alFind, hk, Ne.symm h, ih]
    · simp [alErase, alFind, hk, ih]

theorem alKeys_alSet_of_mem {α β : Type} [DecidableEq α]
    (l : List (α × β)) (k : α) (v w : β) (h : alFind l k = some w) :
    alKeys (alSet l k v) = alKeys l := by
  induction l with
  | nil => simp [alFind] at h
  | cons kv t ih =>
    by_cases hk : kv.1 = k
    · simp [alSet, alKeys, hk]
    · simp [alFind, hk] at h
      simp [alSet, alKeys, hk] at ih ⊢
      exact ih h

/-! ## Session state and the tracking map (`PageState`, `pages`) -/

/-- Per-symbol session state (`PageState` in the source).  `page` is the
driver handle (`Page | null`, abstracted to an id); the optional booleans of
the source default to `false` when absent, matching JS truthiness. -/
structure PageState where
  page : Option Nat
  lastPrice : Option ℚ
  intentionalClose : Bool
  validated : Bool
deriving DecidableEq, Repr

/-- The supervisor's tracking map `pages : Map<string, PageState>`. -/
abbrev Pages := List (String × PageState)

/-- The supervisor's mutable fields relevant to the claims:
`browser`/`context` readiness collapsed to one flag (the model treats
`start()` as always succeeding), plus the tracking map. -/
structure StreamerState where
  browserReady : Bool
  pages : Pages
deriving DecidableEq, Repr

/-! ## The price callback `__reportPrice` -/

/-- A price update event (`PriceEvent` in the source).  `diff` and `pct` are
the numeric values whose `toFixed(2)` renderings fill the `change` and
`changePercent` string fields; the wall-clock `timestamp` is outside the
model. -/
structure PriceEvent where
  symbol : String
  price : String
  diff : ℚ
  pct : ℚ
deriving DecidableEq, Repr

/-- Model of `text.replace(/[^\d.,-]/g, "")`. -/
def cleanText (t : String) : String :=
  ⟨t.data.filter fun c => c.isDigit || c = '.' || c = ',' || c = '-'⟩

/-- Model of `s.replace(/,/g, "")`. -/
def stripCommas (s : String) : String :=
  ⟨s.data.filter fun c => c != ','⟩

/-- Decimal value of a digit run. -/
def digitsVal (cs : List Char) : Nat :=
  cs.foldl (fun a c => a * 10 + (c.toNat - '0'.toNat)) 0

/-- Character-level part of `Number.parseFloat` on the alphabet reachable
after cleaning (digits, `.` and `-`; letters, signs past the first position,
exponents and whitespace have been stripped): an optional leading `-`, then
the longest prefix `digits* (. digits*)?`, split into sign flag, integer
digits and fraction digits; `none` (NaN) when that prefix holds no digit. -/
def parseParts (s : String) : Option (Bool × List Char × List Char) :=
  let p : Bool × List Char :=
    match s.data with
    | '-' :: t => (true, t)
    | cs => (false, cs)
  let ip := p.2.takeWhile Char.isDigit
  let rest := p.2.dropWhile Char.isDigit
  let fp :=
    match rest with
    | '.' :: t => t.takeWhile Char.isDigit
    | _ => []
  if ip.isEmpty && fp.isEmpty then none else some (p.1, ip, fp)

/-- Model of `Number.parseFloat`: the numeric value of the parsed parts. -/
def parseFloatQ (s : String) : Option ℚ :=
  match parseParts s with
  | none => none
  | some (neg, ip, fp) =>
    some ((if neg then -1 else 1) *
      ((digitsVal ip : ℚ) + (digitsVal fp : ℚ) / (10 : ℚ) ^ fp.length))

/-- Model of the `__reportPrice` callback installed by `openTabForSymbol`
for `symbol`: clean the text, parse it, bail out on NaN or an untracked
symbol, otherwise compute deltas against the session's own `lastPrice`
(zero divisor guarded), update the session, and hand back the event that
`this.emit("price", evt)` broadcasts. -/
def reportPrice (pages : Pages) (symbol text : String) : Pages × Option PriceEvent :=
  let cleaned := cleanText text
  match parseFloatQ (stripCommas cleaned) with
  | none => (pages, none)
  | some cur =>
    match alFind pages symbol with
    | none => (pages, none)
    | some st =>
      let prev := st.lastPrice.getD cur
      let st2 : PageState := { st with lastPrice := some cur, validated := true }
      let diff := cur - prev
      let pct := if prev ≠ 0 then diff / prev * 100 else 0
      (alSet pages symbol st2,
        some { symbol := symbol
               price := if cleaned.isEmpty then text else cleaned
               diff := diff
               pct := pct })

/-- Evaluation of `reportPrice` on the emitting path: a parseable reading for
a tracked symbol updates that session and yields the broadcast event. -/
theorem reportPrice_emit (pages : Pages) (symbol text : String)
    (ps : PageState) (cur : ℚ)
    (hf : alFind pages symbol = some ps)
    (hp : parseFloatQ (stripCommas (cleanText text)) = some cur) :
    reportPrice pages symbol text =
      (alSet pages symbol { ps with lastPrice := some cur, validated := true },
        some { symbol := symbol
               price := if (cleanText text).isEmpty then text else cleanText text
               diff := cur - ps.lastPrice.getD cur
               pct :=
                 if ps.lastPrice.getD cur ≠ 0 then
                   (cur - ps.lastPrice.getD cur) / ps.lastPrice.getD cur * 100
                 else 0 }) := by
  simp [reportPrice, hp, hf]

/-- Concrete evaluation of the parser on the literal `"100"`. -/
theorem parse_text_100 : parseFloatQ (stripCommas (cleanText "100")) = some 100 := by
  have h : parseParts (stripCommas (cleanText "100")) =
      some (false, ['1', '0', '0'], []) := by decide
  have hd : digitsVal ['1', '0', '0'] = 100 := by decide
  have hz : digitsVal ([] : List Char) = 0 := by decide
  simp [parseFloatQ, h, hd, hz]

/-- Concrete evaluation of the parser on the literal `"hello"` (NaN). -/
theorem parse_text_hello : parseFloatQ (stripCommas (cleanText "hello")) = none := by
  have h : parseParts (stripCommas (cleanText "hello")) = none := by decide
  simp [parseFloatQ, h]

/-- Sample session states for concrete witnesses. -/
def psFresh : PageState := ⟨some 1, none, false, false⟩

def psZero : PageState := ⟨some 1, some 0, false, false⟩

def psEth : PageState := ⟨some 2, none, false, false⟩

def twoPages : Pages := [("BTCUSDT", psFresh), ("ETHUSDT", psEth)]

/-- Claim C5: the first numeric reading of a session (no previous
`lastPrice`) yields a `PriceUpdate` with zero absolute and zero percent
delta, and any reading whose previous value is exactly zero yields a zero
percent delta — the division by `prev` is guarded by `prev !== 0`. -/
theorem first_reading_zero_delta (pages : Pages) (symbol text : String)
    (ps : PageState) (cur : ℚ)
    (hf : alFind pages symbol = some ps)
    (hp : parseFloatQ (stripCommas (cleanText text)) = some cur) :
    (ps.lastPrice = none →
      ∃ evt, (reportPrice pages symbol text).2 = some evt ∧
        evt.diff = 0 ∧ evt.pct = 0)
    ∧ (ps.lastPrice = some 0 →
      ∃ evt, (reportPrice pages symbol text).2 = some evt ∧ evt.pct = 0) := by
  rw [reportPrice_emit pages symbol text ps cur hf hp]
  constructor
  · intro h0
    refine ⟨_, rfl, ?_, ?_⟩ <;> simp [h0]
  · intro h0
    refine ⟨_, rfl, ?_⟩
    simp [h0]

/-- Witness for C5 at a concrete first reading and a concrete zero previous
value. -/
theorem first_reading_zero_delta_witness :
    (∃ evt, (reportPrice [("BTCUSDT", psFresh)] "BTCUSDT" "100").2 = some evt ∧
      evt.diff = 0 ∧ evt.pct = 0)
    ∧ (∃ evt, (reportPrice [("BTCUSDT", psZero)] "BTCUSDT" "100").2 = some evt ∧
      evt.pct = 0) :=
  ⟨(first_reading_zero_delta _ "BTCUSDT" "100" psFresh 100 (by decide)
      parse_text_100).1 rfl,
   (first_reading_zero_delta _ "BTCUSDT" "100" psZero 100 (by decide)
      parse_text_100).2 rfl⟩

/-- Claim C9: a reading whose cleaned text parses to NaN, or whose symbol is
no longer tracked, emits no `PriceUpdate` and leaves the whole tracking map
(hence every session's `lastPrice` and `validated`) unchanged. -/
theorem report_price_no_update (pages : Pages) (symbol text : String)
    (h : parseFloatQ (stripCommas (cleanText text)) = none ∨
      alFind pages symbol = none) :
    reportPrice pages symbol text = (pages, none) := by
  rcases h with h | h
  · simp [reportPrice, h]
  · cases hp : parseFloatQ (stripCommas (cleanText text)) <;>
      simp [reportPrice, hp, h]

/-- Witness for C9: non-numeric text for a tracked symbol, and numeric text
for an untracked symbol. -/
theorem report_price_no_update_witness :
    reportPrice [("BTCUSDT", psFresh)] "BTCUSDT" "hello" =
      ([("BTCUSDT", psFresh)], none)
    ∧ reportPrice [("BTCUSDT", psFresh)] "ETHUSDT" "100" =
      ([("BTCUSDT", psFresh)], none) :=
  ⟨report_price_no_update _ _ _ (Or.inl parse_text_hello),
   report_price_no_update _ _ _ (Or.inr (by decide))⟩

/-- Claim C10: processing one reading for `symbol` touches only that
symbol's session: the key set of the tracking map and every other symbol's
session state are unchanged by the price callback. -/
theorem report_price_frame (pages : Pages) (symbol text : String) :
    alKeys (reportPrice pages symbol text).1 = alKeys pages
    ∧ ∀ k, k ≠ symbol →
        alFind (reportPrice pages symbol text).1 k = alFind pages k := by
  cases hp : parseFloatQ (stripCommas (cleanText text)) with
  | none => simp [reportPrice, hp]
  | some cur =>
    cases hf : alFind pages symbol with
    | none => simp [reportPrice, hp, hf]
    | some ps =>
      rw [reportPrice_emit pages symbol text ps cur hf hp]
      exact ⟨alKeys_alSet_of_mem pages symbol _ ps hf,
        fun k hk => alFind_alSet_ne pages symbol k _ hk⟩

/-- Witness for C10 on a two-symbol map: a BTC reading leaves the key set
and the ETH session untouched. -/
theorem report_price_frame_witness :
    alKeys (reportPrice twoPages "BTCUSDT" "100").1 = alKeys twoPages
    ∧ alFind (reportPrice twoPages "BTCUSDT" "100").1 "ETHUSDT" =
      alFind twoPages "ETHUSDT" :=
  ⟨(report_price_frame twoPages "BTCUSDT" "100").1,
   (report_price_frame twoPages "BTCUSDT" "100").2 "ETHUSDT" (by decide)⟩

/-! ## Update distribution: `streamPrices` subscriptions -/

/-- One server-stream subscription (`streamPrices` invocation): its private
pending `queue` and the updates already yielded to its client. -/
structure SubState where
  queue : List PriceEvent
  delivered : List PriceEvent
deriving DecidableEq, Repr

/-- The emitter's listener table: one `onPrice` listener per subscription,
identified by a listener id, in registration order. -/
abbrev Subs := List (Nat × SubState)

/-- `streamer.emit("price", evt)`: every registered listener's `push` runs,
appending the event to that subscription's own queue. -/
def emitEvent (subs : Subs) (e : PriceEvent) : Subs :=
  subs.map fun kv => (kv.1, { kv.2 with queue := kv.2.queue ++ [e] })

/-- One turn of a subscription's main loop when its queue is non-empty:
`yield queue.shift()`. -/
def consumeSub (s : SubState) : SubState :=
  match s.queue with
  | [] => s
  | e :: rest => ⟨rest, s.delivered ++ [e]⟩

/-- Subscription `i` consumes from its own queue; other entries untouched. -/
def consumeOne (subs : Subs) (i : Nat) : Subs :=
  subs.map fun kv => if kv.1 = i then (kv.1, consumeSub kv.2) else kv

/-- `streamer.on("price", onPrice)`: register a fresh listener with an empty
queue and nothing delivered. -/
def subscribeSub (subs : Subs) (i : Nat) : Subs := subs ++ [(i, ⟨[], []⟩)]

/-- `streamer.off("price", onPrice)` in the `finally` block. -/
def unsubscribeSub (subs : Subs) (i : Nat) : Subs :=
  subs.filter fun kv => kv.1 ≠ i

/-- Interleaved pipeline steps: an event arriving from some session, or one
subscription yielding the head of its queue. -/
inductive BOp where
  | emit (e : PriceEvent)
  | consume (i : Nat)
deriving DecidableEq, Repr

def runBOps (subs : Subs) : List BOp → Subs
  | [] => subs
  | .emit e :: t => runBOps (emitEvent subs e) t
  | .consume i :: t => runBOps (consumeOne subs i) t

/-- The events produced during a pipeline trace, in emission order. -/
def emitsOf : List BOp → List PriceEvent
  | [] => []
  | .emit e :: t => e :: emitsOf t
  | .consume _ :: t => emitsOf t

theorem alFind_emitEvent (subs : Subs) (e : PriceEvent) (i : Nat) :
    alFind (emitEvent subs e) i =
      (alFind subs i).map fun s => ⟨s.queue ++ [e], s.delivered⟩ := by
  induction subs with
  | nil => simp [emitEvent, alFind]
  | cons kv t ih =>
    simp only [emitEvent, List.map_cons] at ih ⊢
    by_cases h : kv.1 = i
    · simp [alFind, h]
    · simp [alFind, h, ih]

theorem alFind_consumeOne_self (subs : Subs) (i : Nat) :
    alFind (consumeOne subs i) i = (alFind subs i).map consumeSub := by
  induction subs with
  | nil => simp [consumeOne, alFind]
  | cons kv t ih =>
    simp only [consumeOne, List.map_cons] at ih ⊢
    by_cases h : kv.1 = i
    · simp [alFind, h]
    · simp [alFind, h, ih]

theorem alFind_consumeOne_ne (subs : Subs) (i j : Nat) (h : j ≠ i) :
    alFind (consumeOne subs i) j = alFind subs j := by
  induction subs with
  | nil => simp [consumeOne, alFind]
  | cons kv t ih =>
    simp only [consumeOne, List.map_cons] at ih ⊢
    by_cases hk : kv.1 = i
    · simp [alFind, hk, Ne.symm h, ih]
    · simp [alFind, hk, ih]

/-- Along any pipeline trace, a subscription's `delivered ++ queue` view
grows by exactly the emitted events, in emission order. -/
theorem runBOps_view : ∀ (ops : List BOp) (subs : Subs) (i : Nat)
    (q d : List PriceEvent), alFind subs i = some ⟨q, d⟩ →
    ∃ q' d', alFind (runBOps subs ops) i = some ⟨q', d'⟩ ∧
      d' ++ q' = (d ++ q) ++ emitsOf ops := by
  intro ops
  induction ops with
  | nil =>
    intro subs i q d h
    exact ⟨q, d, h, by simp [emitsOf]⟩
  | cons op t ih =>
    intro subs i q d h
    cases op with
    | emit e =>
      have he : alFind (emitEvent subs e) i = some ⟨q ++ [e], d⟩ := by
        rw [alFind_emitEvent, h]
        rfl
      obtain ⟨q', d', h', hv⟩ := ih (emitEvent subs e) i (q ++ [e]) d he
      exact ⟨q', d', h', by simpa [List.append_assoc] using hv⟩
    | consume j =>
      by_cases hj : i = j
      · subst hj
        have hc : alFind (consumeOne subs i) i = some (consumeSub ⟨q, d⟩) := by
          rw [alFind_consumeOne_self, h]
          rfl
        cases q with
        | nil =>
          obtain ⟨q', d', h', hv⟩ := ih (consumeOne subs i) i [] d hc
          exact ⟨q', d', h', by simpa using hv⟩
        | cons e rest =>
          obtain ⟨q', d', h', hv⟩ := ih (consumeOne subs i) i rest (d ++ [e]) hc
          exact ⟨q', d', h', by simpa [List.append_assoc] using hv⟩
      · have hc : alFind (consumeOne subs j) i = alFind subs i :=
          alFind_consumeOne_ne subs j i hj
        obtain ⟨q', d', h', hv⟩ := ih (consumeOne subs j) i q d (hc.trans h)
        exact ⟨q', d', h', hv⟩

/-- Claim C7: a subscription registered with an empty queue sees, as its
`delivered ++ queue` view after any interleaving of emissions and
consumptions, exactly the events emitted after registration in emission
order (so nothing emitted before registration is ever delivered, and
`delivered` is always a prefix of the post-registration emissions); and one
subscription consuming from its own queue never changes any other
subscription's entry. -/
theorem subscription_delivery :
    (∀ (subs : Subs) (ops : List BOp) (i : Nat),
      alFind subs i = some ⟨[], []⟩ →
      ∃ q' d', alFind (runBOps subs ops) i = some ⟨q', d'⟩ ∧
        d' ++ q' = emitsOf ops)
    ∧ ∀ (subs : Subs) (i j : Nat), j ≠ i →
        alFind (consumeOne subs i) j = alFind subs j := by
  constructor
  · intro subs ops i h
    obtain ⟨q', d', h', hv⟩ := runBOps_view ops subs i [] [] h
    exact ⟨q', d', h', by simpa using hv⟩
  · exact alFind_consumeOne_ne

/-- Sample events for the C7 witness. -/
def evA : PriceEvent := ⟨"BTCUSDT", "1", 0, 0⟩

def evB : PriceEvent := ⟨"BTCUSDT", "2", 1, 1⟩

/-- Witness for C7: subscriber 1 joins after `evA` was emitted to subscriber
0 alone; over a trace emitting `evB` and letting both consume, subscriber
1's view is exactly `[evB]`, and subscriber 0's entry ignores subscriber 1's
consumption. -/
theorem subscription_delivery_witness :
    (∃ q' d',
      alFind (runBOps (subscribeSub (runBOps (subscribeSub [] 0) [.emit evA]) 1)
          [.emit evB, .consume 0, .consume 1]) 1 = some ⟨q', d'⟩ ∧
        d' ++ q' = emitsOf [.emit evB, .consume 0, .consume 1])
    ∧ alFind (consumeOne (subscribeSub (runBOps (subscribeSub [] 0) [.emit evA]) 1) 1) 0 =
        alFind (subscribeSub (runBOps (subscribeSub [] 0) [.emit evA]) 1) 0 :=
  ⟨subscription_delivery.1 _ [.emit evB, .consume 0, .consume 1] 1 (by decide),
   subscription_delivery.2 _ 1 0 (by decide)⟩

/-! ## I/O oracles and action traces -/

/-- Side effects the supervisor performs against the page-driving capability,
recorded in order. -/
inductive Act where
  | launch
  | openProbe
  | navProbe
  | checkInvalidNow
  | waitInvalid
  | checkPriceNow
  | sprintWait
  | evalJsonLd
  | closeProbe
  | openTab
  | navTab
  | closeTab
deriving DecidableEq, Repr

/-- Oracle for one run of `validateTickerFast`: how each Playwright call on
the throwaway probe page would turn out.  `newPageOk = false` means
`context.newPage()` itself throws (before the `try` block). -/
structure ProbeOracle where
  newPageOk : Bool
  gotoOk : Bool
  invalidNow : Bool
  invalidSoon : Bool
  priceNow : Bool
  sprintBudget : Bool
  priceSprint : Bool
  evalOk : Bool
  jsonLd : Option String
deriving DecidableEq, Repr

/-- Oracle for one run of `openTabForSymbol`: outcome of `newPage`, of the
persistent `goto`, the post-navigation invalid-marker check, and the id of
the page handle produced. -/
structure OpenOracle where
  newPageOk : Bool
  gotoOk : Bool
  postNavInvalid : Bool
  pageId : Nat
deriving DecidableEq, Repr

/-- The `{ ok, reason? }` result shape of the streamer's internal API. -/
structure AddRes where
  ok : Bool
  reason : Option String
deriving DecidableEq, Repr

/-! ## `validateTickerFast` -/

/-- The body of `validateTickerFast`'s `try` block, step by step in source
order: persistent navigation, immediate invalid markers, the short invalid
wait, immediate price selectors, the bounded sprint wait, and the JSON-LD
fallback.  `Sum.inr` is an exception thrown inside the `try`. -/
def probeOutcome (o : ProbeOracle) : AddRes ⊕ String :=
  if !o.gotoOk then .inr "navigation error"
  else if o.invalidNow then .inl ⟨false, some "Invalid ticker"⟩
  else if o.invalidSoon then .inl ⟨false, some "Invalid ticker"⟩
  else if o.priceNow then .inl ⟨true, none⟩
  else if o.sprintBudget && o.priceSprint then .inl ⟨true, none⟩
  else if !o.evalOk then .inr "evaluate error"
  else if o.jsonLd.isSome then .inl ⟨true, none⟩
  else .inl ⟨false, some "Invalid ticker"⟩

/-- The probe-page actions performed by the `try` block, branch by branch. -/
def probeActs (o : ProbeOracle) : List Act :=
  if !o.gotoOk then []
  else if o.invalidNow then [.checkInvalidNow]
  else if o.invalidSoon then [.checkInvalidNow, .waitInvalid]
  else if o.priceNow then [.checkInvalidNow, .waitInvalid, .checkPriceNow]
  else if o.sprintBudget && o.priceSprint then
    [.checkInvalidNow, .waitInvalid, .checkPriceNow, .sprintWait]
  else
    [.checkInvalidNow, .waitInvalid, .checkPriceNow, .sprintWait, .evalJsonLd]

/-- Model of `validateTickerFast`: bail out if the context is missing; open
the probe page (a throw here escapes, the page does not exist yet); run the
`try` body; the `catch` turns any exception thrown inside it into the
`Invalid ticker` rejection; the `finally` closes the probe page on every one
of those paths. -/
def validateTickerFast (ctxReady : Bool) (o : ProbeOracle) :
    Except String AddRes × List Act :=
  if !ctxReady then (.ok ⟨false, some "Browser not started"⟩, [])
  else if !o.newPageOk then (.error "newPage failed", [])
  else
    (.ok (match probeOutcome o with
          | .inl r => r
          | .inr _ => ⟨false, some "Invalid ticker"⟩),
      .openProbe :: .navProbe :: (probeActs o ++ [.closeProbe]))

/-! ## `openTabForSymbol`, `retryOpen` and the page-close handler -/

/-- Model of `openTabForSymbol`: throws when the context is gone, when the
symbol has no registered state, or when `newPage`/`goto` fail (the source
wraps none of these in a `try`).  After navigation, a page showing an
invalid marker makes the supervisor set `intentionalClose`, close the tab
and delete the tracking entry; otherwise the new handle is stored. -/
def openTabForSymbol (st : StreamerState) (symbol : String) (o : OpenOracle) :
    Except String Pages × List Act :=
  if !st.browserReady then (.error "Context (window) not available", [])
  else
    match alFind st.pages symbol with
    | none => (.error "State not initialized", [])
    | some ps =>
      if !o.newPageOk then (.error "newPage failed", [])
      else if !o.gotoOk then (.error "navigation failed", [.openTab, .navTab])
      else if o.postNavInvalid then
        (.ok (alErase st.pages symbol), [.openTab, .navTab, .closeTab])
      else
        (.ok (alSet st.pages symbol { ps with page := some o.pageId }),
          [.openTab, .navTab])

/-- The fixed backoff schedule of `retryOpen` (milliseconds). -/
def retryDelays : List Nat := [500, 1000, 2000, 4000]

/-- The retry loop of `retryOpen`: attempt `openTabForSymbol`; stop on the
first attempt that returns; after a throwing attempt, sleep the scheduled
delay and continue; when the schedule is exhausted, give up, leaving the
map as the failed attempts left it.  Returns the map and the slept delays.
The oracle `os` gives attempt `i`'s `OpenOracle`. -/
def retryLoop (ready : Bool) (symbol : String) (os : Nat → OpenOracle) :
    Pages → List Nat → Nat → Pages × List Nat
  | pages, [], _ => (pages, [])
  | pages, d :: ds, i =>
    match (openTabForSymbol ⟨ready, pages⟩ symbol (os i)).1 with
    | .ok pages2 => (pages2, [])
    | .error _ =>
      let r := retryLoop ready symbol os pages ds (i + 1)
      (r.1, d :: r.2)

/-- Model of `retryOpen`: refuse to act for untracked, intentionally closed
or never-validated sessions; otherwise run the backoff loop. -/
def retryOpen (st : StreamerState) (symbol : String) (os : Nat → OpenOracle) :
    Pages × List Nat :=
  match alFind st.pages symbol with
  | none => (st.pages, [])
  | some ps =>
    if ps.intentionalClose || !ps.validated then (st.pages, [])
    else retryLoop st.browserReady symbol os st.pages retryDelays 0

/-- Model of the `page.on("close")` handler installed by `openTabForSymbol`:
ignore closes of untracked symbols, intentional closes, and closes of
sessions that never validated; otherwise null the handle and heal via
`retryOpen`. -/
def pageCloseHandler (st : StreamerState) (symbol : String)
    (os : Nat → OpenOracle) : Pages × List Nat :=
  match alFind st.pages symbol with
  | none => (st.pages, [])
  | some ps =>
    if ps.intentionalClose then (st.pages, [])
    else if !ps.validated then (st.pages, [])
    else
      retryOpen ⟨st.browserReady, alSet st.pages symbol { ps with page := none }⟩
        symbol os

/-! ## `addTicker`, `removeTicker`, `hasTicker` and the service facade -/

/-- Model of `PriceStreamer.hasTicker`: membership under the uppercased raw
input (no suffix normalization). -/
def hasTicker (st : StreamerState) (symbol : String) : Bool :=
  (alFind st.pages (jsUpper symbol)).isSome

/-- Model of `PriceStreamer.addTicker`: normalize and uppercase; lazily
start the browser; reject on the basic regex with no probe I/O; short-cut
success when the symbol is tracked with a live handle; run fast validation
(whose `newPage` throw escapes); on acceptance register or reset the
tracking entry and open the persistent tab (whose throws also escape). -/
def streamerAddTicker (st : StreamerState) (raw : String) (po : ProbeOracle)
    (oo : OpenOracle) :
    Except String (AddRes × StreamerState) × List Act :=
  let symbol := jsUpper (normalizeSymbol raw)
  let p : StreamerState × List Act :=
    if st.browserReady then (st, []) else ({ st with browserReady := true }, [.launch])
  let st1 := p.1
  if !st1.browserReady then (.ok (⟨false, some "Browser not started"⟩, st1), p.2)
  else if !basicTickerTest symbol then
    (.ok (⟨false, some "Invalid ticker"⟩, st1), p.2)
  else
    let existing := alFind st1.pages symbol
    if (existing.map fun ps => ps.page.isSome).getD false then
      (.ok (⟨true, none⟩, st1), p.2)
    else
      match validateTickerFast st1.browserReady po with
      | (.error e, vtr) => (.error e, p.2 ++ vtr)
      | (.ok vr, vtr) =>
        if !vr.ok then
          (.ok (⟨false, some (vr.reason.getD "Invalid ticker")⟩, st1), p.2 ++ vtr)
        else
          let pages1 :=
            match existing with
            | none => alSet st1.pages symbol ⟨none, none, false, false⟩
            | some ex =>
              alSet st1.pages symbol { ex with intentionalClose := false, validated := false }
          match openTabForSymbol ⟨st1.browserReady, pages1⟩ symbol oo with
          | (.error e, otr) => (.error e, p.2 ++ vtr ++ otr)
          | (.ok pages2, otr) =>
            (.ok (⟨true, none⟩, ⟨st1.browserReady, pages2⟩), p.2 ++ vtr ++ otr)

/-- Model of `PriceStreamer.removeTicker`: look up the uppercased raw input;
ignore untracked symbols; otherwise mark intentional, close the tab if any,
and delete the entry. -/
def removeTicker (st : StreamerState) (raw : String) : StreamerState × List Act :=
  let symbol := jsUpper raw
  match alFind st.pages symbol with
  | none => (st, [])
  | some ps =>
    ({ st with pages := alErase st.pages symbol },
      if ps.page.isSome then [.closeTab] else [])

/-- The `AddTickerResponse` protobuf message surfaced to clients. -/
structure AddTickerResponse where
  success : Bool
  message : String
deriving DecidableEq, Repr

/-- Model of `priceServiceImpl.addTicker`: trim the request, reject
duplicates up front via `hasTicker`, otherwise delegate to the streamer and
map `{ok, reason}` onto `{success, message}`. -/
def svcAddTicker (st : StreamerState) (raw : String) (po : ProbeOracle)
    (oo : OpenOracle) :
    Except String (AddTickerResponse × StreamerState) × List Act :=
  let symbol := jsTrim raw
  if hasTicker st symbol then
    (.ok (⟨false, "Ticker already being tracked"⟩, st), [])
  else
    match streamerAddTicker st symbol po oo with
    | (.error e, tr) => (.error e, tr)
    | (.ok (r, st2), tr) =>
      if !r.ok then (.ok (⟨false, r.reason.getD "Invalid ticker"⟩, st2), tr)
      else (.ok (⟨true, ""⟩, st2), tr)

/-- Model of `priceServiceImpl.removeTicker`: trim and delegate; always
reports success. -/
def svcRemoveTicker (st : StreamerState) (raw : String) :
    (Bool × StreamerState) × List Act :=
  let r := removeTicker st (jsTrim raw)
  ((true, r.1), r.2)

/-! ## Concrete fixtures for witnesses and counterexamples -/

/-- A started supervisor with nothing tracked. -/
def readyEmpty : StreamerState := ⟨true, []⟩

/-- A started supervisor tracking `BTCUSDT` with a live handle. -/
def stBtc : StreamerState := ⟨true, [("BTCUSDT", psFresh)]⟩

/-- Probe oracle for a page whose price selector is present immediately. -/
def acceptProbe : ProbeOracle := ⟨true, true, false, false, true, true, false, true, none⟩

/-- Probe oracle whose navigation throws inside the `try`. -/
def probeNavError : ProbeOracle :=
  ⟨true, false, false, false, false, false, false, true, none⟩

/-- Open oracle for a clean persistent-tab open. -/
def openOk : OpenOracle := ⟨true, true, false, 1⟩

/-- Open oracle whose persistent `goto` throws. -/
def openNavError : OpenOracle := ⟨true, false, false, 1⟩

/-- The response produced by a facade call, with a marker value when the
call instead threw. -/
def addRespOf (r : Except String (AddTickerResponse × StreamerState) × List Act) :
    AddTickerResponse :=
  match r.1 with
  | .ok (resp, _) => resp
  | .error _ => ⟨false, "uncaught exception"⟩

/-- The supervisor state after a facade call (`d` when the call threw). -/
def addStateOf (d : StreamerState)
    (r : Except String (AddTickerResponse × StreamerState) × List Act) :
    StreamerState :=
  match r.1 with
  | .ok (_, st2) => st2
  | .error _ => d

/-- Did the call surface a thrown exception? -/
def exceptIsError {α : Type} : Except String α → Bool
  | .error _ => true
  | .ok _ => false

/-! ## Claim C8 -/

/-- Claim C8: every execution path of `validateTickerFast` that actually
opened the throwaway probe page — acceptance, each rejection branch, and a
thrown navigation (or evaluation) error — closes that probe page as its
last action before returning, via the `finally` block. -/
theorem probe_always_closed (ctx : Bool) (o : ProbeOracle)
    (h : (validateTickerFast ctx o).2.contains Act.openProbe = true) :
    (validateTickerFast ctx o).2.getLast? = some Act.closeProbe := by
  cases ctx with
  | false => simp [validateTickerFast] at h
  | true =>
    cases hn : o.newPageOk with
    | false => simp [validateTickerFast, hn] at h
    | true =>
      have : validateTickerFast true o =
          (.ok (match probeOutcome o with
                | .inl r => r
                | .inr _ => ⟨false, some "Invalid ticker"⟩),
            (Act.openProbe :: Act.navProbe :: probeActs o) ++ [Act.closeProbe]) := by
        simp [validateTickerFast, hn]
      rw [this]
      show ((Act.openProbe :: Act.navProbe :: probeActs o) ++
        [Act.closeProbe]).getLast? = some Act.closeProbe
      rw [List.getLast?_append_cons]
      rfl

/-- Witness for C8 at the accepting probe oracle. -/
theorem probe_always_closed_witness :
    (validateTickerFast true acceptProbe).2.contains Act.openProbe = true
    ∧ (validateTickerFast true acceptProbe).2.getLast? = some Act.closeProbe :=
  ⟨by decide, probe_always_closed true acceptProbe (by decide)⟩

/-! ## Claim C4 -/

/-- Counterexample to claim C4 as stated: `Add("btc")` tracks the entry
under the normalized key `BTCUSDT`, but `Remove("btc")` looks up only the
uppercased raw input `BTC`, finds nothing, and leaves the map unchanged —
it does not remove the entry that Add created. -/
theorem remove_key_mismatch_cex :
    addStateOf readyEmpty (svcAddTicker readyEmpty "btc" acceptProbe openOk) = stBtc
    ∧ (removeTicker stBtc "btc").1 = stBtc
    ∧ alFind stBtc.pages "BTCUSDT" = some psFresh := by decide

/-- Claim C4 (corrected): `Add` keys the tracking map by the fully
normalized symbol, but `Remove` (and `hasTicker`) key only by the
uppercased raw input with no suffix normalization, so they address the same
entry only when the uppercased input already equals the normalized key.
`Remove` deletes exactly the `jsUpper raw` entry, leaves every other key
untouched, and is a no-op whenever `jsUpper raw` is untracked — in
particular `Remove("btc")` after `Add("btc")` leaves the `BTCUSDT` session
in place. -/
theorem remove_keys_by_upper_raw (st : StreamerState) (raw : String) :
    alFind ((removeTicker st raw).1).pages (jsUpper raw) = none
    ∧ (∀ k, k ≠ jsUpper raw →
        alFind ((removeTicker st raw).1).pages k = alFind st.pages k)
    ∧ (alFind st.pages (jsUpper raw) = none → (removeTicker st raw).1 = st) := by
  cases hf : alFind st.pages (jsUpper raw) with
  | none =>
    refine ⟨?_, ?_, ?_⟩ <;> simp [removeTicker, hf]
  | some ps =>
    refine ⟨?_, ?_, ?_⟩
    · simp [removeTicker, hf, alFind_alErase_self]
    · intro k hk
      simp [removeTicker, hf, alFind_alErase_ne st.pages (jsUpper raw) k hk]
    · intro hnone
      simp [hf] at hnone

/-- Witness for C4 (corrected) at the canonical and the suffix-less raw
inputs. -/
theorem remove_keys_by_upper_raw_witness :
    alFind ((removeTicker stBtc "BTCUSDT").1).pages (jsUpper "BTCUSDT") = none
    ∧ alFind ((removeTicker stBtc "btc").1).pages "BTCUSDT" =
        alFind stBtc.pages "BTCUSDT"
    ∧ (removeTicker stBtc "btc").1 = stBtc :=
  ⟨(remove_keys_by_upper_raw stBtc "BTCUSDT").1,
   (remove_keys_by_upper_raw stBtc "btc").2.1 "BTCUSDT" (by decide),
   (remove_keys_by_upper_raw stBtc "btc").2.2 (by decide)⟩

/-! ## Claim C2 -/

/-- Counterexample to claim C2 as stated: the raw input `"A"` fails the
lexical shape check (alphanumeric, 3–15 characters, optional quote-asset
suffix), yet `Add("A")` is not rejected — the code tests the regex only
after appending the `USDT` suffix, so `AUSDT` passes, a validation probe
page is opened, and (with an accepting probe) the call even succeeds. -/
theorem lexical_reject_cex :
    basicTickerTest "A" = false
    ∧ addRespOf (svcAddTicker readyEmpty "A" acceptProbe openOk) = ⟨true, ""⟩
    ∧ (svcAddTicker readyEmpty "A" acceptProbe openOk).2.contains
        Act.openProbe = true := by decide

/-- Claim C2 (corrected): the lexical shape check runs on the *normalized*
symbol (suffix appended when absent).  Whenever that normalized symbol fails
the regex — e.g. `"!!"` or a 20-character input — `Add` returns an
unsuccessful response, opens no probe page, performs no probe navigation,
and leaves the tracking map unchanged. -/
theorem lexical_reject_no_io (st : StreamerState) (raw : String)
    (po : ProbeOracle) (oo : OpenOracle)
    (h : basicTickerTest (jsUpper (normalizeSymbol (jsTrim raw))) = false) :
    ∃ resp st2 tr,
      svcAddTicker st raw po oo = (.ok (resp, st2), tr)
      ∧ resp.success = false ∧ st2.pages = st.pages
      ∧ tr.contains Act.openProbe = false
      ∧ tr.contains Act.navProbe = false := by
  by_cases hd : hasTicker st (jsTrim raw)
  · exact ⟨⟨false, "Ticker already being tracked"⟩, st, [],
      by simp [svcAddTicker, hd], rfl, rfl, rfl, rfl⟩
  · rcases st with ⟨b, pgs⟩
    cases b with
    | false =>
      exact ⟨⟨false, "Invalid ticker"⟩, ⟨true, pgs⟩, [Act.launch],
        by simp [svcAddTicker, hd, streamerAddTicker, h], rfl, rfl, rfl, rfl⟩
    | true =>
      exact ⟨⟨false, "Invalid ticker"⟩, ⟨true, pgs⟩, [],
        by simp [svcAddTicker, hd, streamerAddTicker, h], rfl, rfl, rfl, rfl⟩

/-- Witness for C2 (corrected) at the junk input `"!!"`. -/
theorem lexical_reject_no_io_witness :
    basicTickerTest (jsUpper (normalizeSymbol (jsTrim "!!"))) = false
    ∧ ∃ resp st2 tr,
      svcAddTicker readyEmpty "!!" acceptProbe openOk = (.ok (resp, st2), tr)
      ∧ resp.success = false ∧ st2.pages = readyEmpty.pages
      ∧ tr.contains Act.openProbe = false
      ∧ tr.contains Act.navProbe = false :=
  ⟨by decide, lexical_reject_no_io readyEmpty "!!" acceptProbe openOk (by decide)⟩

/-! ## Claim C1 -/

/-- Counterexample to claim C1 as stated: with `BTCUSDT` already tracked
live, the facade's duplicate guard answers the second `Add("BTCUSDT")` with
`success := false` and the message `Ticker already being tracked` — not
with success and no message.  (The map still holds exactly one session.) -/
theorem facade_add_duplicate_cex :
    addRespOf (svcAddTicker readyEmpty "BTCUSDT" acceptProbe openOk) = ⟨true, ""⟩
    ∧ addStateOf readyEmpty (svcAddTicker readyEmpty "BTCUSDT" acceptProbe openOk) =
        stBtc
    ∧ addRespOf (svcAddTicker stBtc "BTCUSDT" acceptProbe openOk) =
        ⟨false, "Ticker already being tracked"⟩
    ∧ alKeys stBtc.pages = ["BTCUSDT"] := by decide

/-- Claim C1 (corrected): when the uppercased trimmed input is itself a key
of the tracking map, the second `Add` is answered by the facade's duplicate
guard with failure and `Ticker already being tracked`; only when the input
uppercases to something other than the tracked normalized key (e.g. bare
`btc` against key `BTCUSDT`) does the call reach the supervisor's
short-circuit and return success with an empty message.  In both cases the
tracking map is left unchanged, so exactly one session remains. -/
theorem facade_add_duplicate_behavior (st : StreamerState) (raw : String)
    (po : ProbeOracle) (oo : OpenOracle) :
    ((alFind st.pages (jsUpper (jsTrim raw))).isSome = true →
      svcAddTicker st raw po oo =
        (.ok (⟨false, "Ticker already being tracked"⟩, st), []))
    ∧ ∀ ps, alFind st.pages (jsUpper (jsTrim raw)) = none →
        alFind st.pages (jsUpper (normalizeSymbol (jsTrim raw))) = some ps →
        ps.page.isSome = true →
        basicTickerTest (jsUpper (normalizeSymbol (jsTrim raw))) = true →
        ∃ tr, svcAddTicker st raw po oo =
          (.ok (⟨true, ""⟩, { st with browserReady := true }), tr) := by
  constructor
  · intro h
    simp [svcAddTicker, hasTicker, h]
  · intro ps h1 h2 h3 h4
    rcases st with ⟨b, pgs⟩
    cases b with
    | false =>
      exact ⟨[Act.launch],
        by simp [svcAddTicker, hasTicker, streamerAddTicker, h1, h2, h3, h4]⟩
    | true =>
      exact ⟨[],
        by simp [svcAddTicker, hasTicker, streamerAddTicker, h1, h2, h3, h4]⟩

/-- Witness for C1 (corrected): duplicate `Add("BTCUSDT")` against the
tracked `BTCUSDT`, and duplicate `Add("btc")` against the same entry. -/
theorem facade_add_duplicate_behavior_witness :
    svcAddTicker stBtc "BTCUSDT" acceptProbe openOk =
      (.ok (⟨false, "Ticker already being tracked"⟩, stBtc), [])
    ∧ ∃ tr, svcAddTicker stBtc "btc" acceptProbe openOk =
      (.ok (⟨true, ""⟩, { stBtc with browserReady := true }), tr) :=
  ⟨(facade_add_duplicate_behavior stBtc "BTCUSDT" acceptProbe openOk).1 (by decide),
   (facade_add_duplicate_behavior stBtc "btc" acceptProbe openOk).2 psFresh
     (by decide) (by decide) (by decide) (by decide)⟩

/-! ## Claim C3 -/

/-- Helper: when the probe page opens and the persistent tab's `newPage` and
`goto` succeed, `streamerAddTicker` never surfaces a thrown exception — every
failure mode reachable under these hypotheses (probe navigation error, probe
markers, evaluation error, post-navigation invalidity) is caught and mapped
to a result. -/
theorem streamerAdd_no_throw (st : StreamerState) (raw : String)
    (po : ProbeOracle) (oo : OpenOracle)
    (h1 : po.newPageOk = true) (h2 : oo.newPageOk = true) (h3 : oo.gotoOk = true) :
    exceptIsError (streamerAddTicker st raw po oo).1 = false := by
  have hval : validateTickerFast true po =
      (.ok (match probeOutcome po with
            | .inl r => r
            | .inr _ => ⟨false, some "Invalid ticker"⟩),
        Act.openProbe :: Act.navProbe :: (probeActs po ++ [Act.closeProbe])) := by
    simp [validateTickerFast, h1]
  have hopen : ∀ (pages : Pages) (ps : PageState),
      alFind pages (jsUpper (normalizeSymbol raw)) = some ps →
      ∃ p2 tr2, openTabForSymbol ⟨true, pages⟩ (jsUpper (normalizeSymbol raw)) oo =
        (.ok p2, tr2) := by
    intro pages ps hf
    cases hpn : oo.postNavInvalid
    · exact ⟨alSet pages (jsUpper (normalizeSymbol raw)) { ps with page := some oo.pageId },
        [Act.openTab, Act.navTab],
        by simp [openTabForSymbol, hf, h2, h3, hpn]⟩
    · exact ⟨alErase pages (jsUpper (normalizeSymbol raw)),
        [Act.openTab, Act.navTab, Act.closeTab],
        by simp [openTabForSymbol, hf, h2, h3, hpn]⟩
  rcases st with ⟨b, pgs⟩
  cases b <;>
  · simp only [streamerAddTicker, Bool.false_eq_true, if_false, if_true]
    by_cases hr : basicTickerTest (jsUpper (normalizeSymbol raw)) = true
    · cases hex : alFind pgs (jsUpper (normalizeSymbol raw)) with
      | none =>
        obtain ⟨p2, tr2, ho⟩ := hopen _ _
          (alFind_alSet_self pgs (jsUpper (normalizeSymbol raw))
            ⟨none, none, false, false⟩)
        cases hvo : (match probeOutcome po with
            | Sum.inl r => r
            | Sum.inr _ => (⟨false, some "Invalid ticker"⟩ : AddRes)).ok <;>
          simp [hr, hex, hval, ho, hvo, exceptIsError]
      | some ex =>
        by_cases hlive : ex.page.isSome = true
        · simp [hr, hex, hlive, exceptIsError]
        · obtain ⟨p2, tr2, ho⟩ := hopen _ _
            (alFind_alSet_self pgs (jsUpper (normalizeSymbol raw))
              { ex with intentionalClose := false, validated := false })
          cases hvo : (match probeOutcome po with
              | Sum.inl r => r
              | Sum.inr _ => (⟨false, some "Invalid ticker"⟩ : AddRes)).ok <;>
            simp [hr, hex, hlive, hval, ho, hvo, exceptIsError]
    · simp [hr, exceptIsError]

/-- Counterexample to claim C3 as stated: a navigation failure while opening
the persistent streaming tab, and a failure to open the probe page itself,
both escape `addTicker` uncaught and surface to the facade caller as thrown
exceptions rather than as rejection results. -/
theorem add_uncaught_open_failure_cex :
    exceptIsError (svcAddTicker readyEmpty "BTCUSDT" acceptProbe openNavError).1 =
      true
    ∧ exceptIsError (svcAddTicker readyEmpty "BTCUSDT"
        ⟨false, true, false, false, false, false, false, true, none⟩ openOk).1 =
      true := by decide

/-- Claim C3 (corrected): failures raised *inside* the validation probe's
`try` block (navigation timeout, marker probing, structured-data evaluation)
are caught and converted to a rejection — under the sole assumptions that the
probe page itself opens and that the persistent tab's open and navigation do
not throw, no oracle can make `Add` surface an exception.  Failures opening
the probe page, or opening/navigating the persistent tab, do propagate (see
the counterexample). -/
theorem add_probe_failures_caught (st : StreamerState) (raw : String)
    (po : ProbeOracle) (oo : OpenOracle)
    (h1 : po.newPageOk = true) (h2 : oo.newPageOk = true) (h3 : oo.gotoOk = true) :
    exceptIsError (svcAddTicker st raw po oo).1 = false := by
  by_cases hd : hasTicker st (jsTrim raw)
  · simp [svcAddTicker, hd, exceptIsError]
  · have hs := streamerAdd_no_throw st (jsTrim raw) po oo h1 h2 h3
    rcases hres : streamerAddTicker st (jsTrim raw) po oo with ⟨e, tr⟩
    cases e with
    | error e2 =>
      rw [hres] at hs
      simp [exceptIsError] at hs
    | ok y =>
      obtain ⟨r, st2⟩ := y
      by_cases hok : r.ok = true <;> simp [svcAddTicker, hd, hres, hok, exceptIsError]

/-- Witness for C3 (corrected): a probe whose navigation throws is caught
and the call still returns a result. -/
theorem add_probe_failures_caught_witness :
    exceptIsError (svcAddTicker readyEmpty "BTCUSDT" probeNavError openOk).1 =
      false :=
  add_probe_failures_caught readyEmpty "BTCUSDT" probeNavError openOk
    (by decide) (by decide) (by decide)

/-! ## Claim C6 -/

/-- An `openTabForSymbol` attempt throws exactly when `newPage` or `goto`
fails (for a tracked symbol on a live context). -/
def attemptThrows (o : OpenOracle) : Bool := !(o.newPageOk && o.gotoOk)

theorem openTab_err_of_throws (pages : Pages) (symbol : String)
    (ps : PageState) (o : OpenOracle)
    (hf : alFind pages symbol = some ps) (h : attemptThrows o = true) :
    ∃ e, (openTabForSymbol ⟨true, pages⟩ symbol o).1 = .error e := by
  cases hn : o.newPageOk with
  | false => exact ⟨"newPage failed", by simp [openTabForSymbol, hf, hn]⟩
  | true =>
    have hg : o.gotoOk = false := by
      simp [attemptThrows, hn] at h
      exact h
    exact ⟨"navigation failed", by simp [openTabForSymbol, hf, hn, hg]⟩

theorem openTab_ok_of_no_throw (pages : Pages) (symbol : String)
    (ps : PageState) (o : OpenOracle)
    (hf : alFind pages symbol = some ps) (h : attemptThrows o = false) :
    ∃ p2, (openTabForSymbol ⟨true, pages⟩ symbol o).1 = .ok p2 := by
  have hn : o.newPageOk = true := by
    cases hn : o.newPageOk <;> simp [attemptThrows, hn] at h ⊢
  have hg : o.gotoOk = true := by
    cases hg : o.gotoOk <;> simp [attemptThrows, hn, hg] at h ⊢
  cases hpn : o.postNavInvalid
  · exact ⟨alSet pages symbol { ps with page := some o.pageId },
      by simp [openTabForSymbol, hf, hn, hg, hpn]⟩
  · exact ⟨alErase pages symbol, by simp [openTabForSymbol, hf, hn, hg, hpn]⟩

/-- Claim C6: after an unexpected close of a validated, not intentionally
closed session, the supervisor retries reopening on the fixed schedule
`[500, 1000, 2000, 4000]` ms.  If all four attempts throw, the handler
returns with the tracking entry still in the map and its handle null, having
slept the full schedule, and nothing further is attempted for the symbol;
if attempt `k` is the first that does not throw, the loop stops there after
sleeping only the first `k` delays, ending in that attempt's resulting map. -/
theorem unexpected_close_retry_schedule (pages : Pages) (symbol : String)
    (ps : PageState) (os : Nat → OpenOracle)
    (hf : alFind pages symbol = some ps)
    (hic : ps.intentionalClose = false) (hv : ps.validated = true) :
    ((∀ i, i < 4 → attemptThrows (os i) = true) →
      pageCloseHandler ⟨true, pages⟩ symbol os =
        (alSet pages symbol { ps with page := none }, retryDelays))
    ∧ ∀ k, k < 4 → attemptThrows (os k) = false →
        (∀ j, j < k → attemptThrows (os j) = true) →
        ∃ p2, (openTabForSymbol
            ⟨true, alSet pages symbol { ps with page := none }⟩ symbol (os k)).1 =
            .ok p2
          ∧ pageCloseHandler ⟨true, pages⟩ symbol os = (p2, retryDelays.take k) := by
  obtain ⟨pg, lp, ic, vd⟩ := ps
  simp only at hic hv
  subst hic
  subst hv
  have hf2 : alFind (alSet pages symbol ⟨none, lp, false, true⟩) symbol =
      some ⟨none, lp, false, true⟩ :=
    alFind_alSet_self pages symbol ⟨none, lp, false, true⟩
  have hred : pageCloseHandler ⟨true, pages⟩ symbol os =
      retryLoop true symbol os (alSet pages symbol ⟨none, lp, false, true⟩)
        retryDelays 0 := by
    simp [pageCloseHandler, retryOpen, hf, hf2]
  constructor
  · intro hall
    obtain ⟨e0, h0⟩ := openTab_err_of_throws _ symbol _ (os 0) hf2 (hall 0 (by norm_num))
    obtain ⟨e1, h1⟩ := openTab_err_of_throws _ symbol _ (os 1) hf2 (hall 1 (by norm_num))
    obtain ⟨e2, h2⟩ := openTab_err_of_throws _ symbol _ (os 2) hf2 (hall 2 (by norm_num))
    obtain ⟨e3, h3⟩ := openTab_err_of_throws _ symbol _ (os 3) hf2 (hall 3 (by norm_num))
    rw [hred]
    simp [retryLoop, retryDelays, h0, h1, h2, h3]
  · intro k hk hkok hprev
    interval_cases k
    · obtain ⟨p2, hok⟩ := openTab_ok_of_no_throw _ symbol _ (os 0) hf2 hkok
      exact ⟨p2, hok, by rw [hred]; simp [retryLoop, retryDelays, hok]⟩
    · obtain ⟨e0, h0⟩ := openTab_err_of_throws _ symbol _ (os 0) hf2 (hprev 0 (by norm_num))
      obtain ⟨p2, hok⟩ := openTab_ok_of_no_throw _ symbol _ (os 1) hf2 hkok
      exact ⟨p2, hok, by rw [hred]; simp [retryLoop, retryDelays, h0, hok]⟩
    · obtain ⟨e0, h0⟩ := openTab_err_of_throws _ symbol _ (os 0) hf2 (hprev 0 (by norm_num))
      obtain ⟨e1, h1⟩ := openTab_err_of_throws _ symbol _ (os 1) hf2 (hprev 1 (by norm_num))
      obtain ⟨p2, hok⟩ := openTab_ok_of_no_throw _ symbol _ (os 2) hf2 hkok
      exact ⟨p2, hok, by rw [hred]; simp [retryLoop, retryDelays, h0, h1, hok]⟩
    · obtain ⟨e0, h0⟩ := openTab_err_of_throws _ symbol _ (os 0) hf2 (hprev 0 (by norm_num))
      obtain ⟨e1, h1⟩ := openTab_err_of_throws _ symbol _ (os 1) hf2 (hprev 1 (by norm_num))
      obtain ⟨e2, h2⟩ := openTab_err_of_throws _ symbol _ (os 2) hf2 (hprev 2 (by norm_num))
      obtain ⟨p2, hok⟩ := openTab_ok_of_no_throw _ symbol _ (os 3) hf2 hkok
      exact ⟨p2, hok, by rw [hred]; simp [retryLoop, retryDelays, h0, h1, h2, hok]⟩

/-- A validated streaming session for the C6 witness. -/
def psValidated : PageState := ⟨some 1, some 100, false, true⟩

/-- Tracking map holding that validated session. -/
def valPages : Pages := [("BTCUSDT", psValidated)]

/-- Attempt oracle on which every reopen attempt throws. -/
def osAllFail : Nat → OpenOracle := fun _ => ⟨false, false, false, 9⟩

/-- Attempt oracle whose attempts 0 and 1 throw and whose attempt 2
succeeds. -/
def osThirdOk : Nat → OpenOracle :=
  fun i => if i < 2 then ⟨false, false, false, 9⟩ else ⟨true, true, false, 9⟩

/-- Witness for C6: with every attempt failing the entry survives with a
null handle after the full schedule; with the third attempt succeeding the
loop stops after two slept delays. -/
theorem unexpected_close_retry_schedule_witness :
    pageCloseHandler ⟨true, valPages⟩ "BTCUSDT" osAllFail =
      (alSet valPages "BTCUSDT" { psValidated with page := none }, retryDelays)
    ∧ ∃ p2, (openTabForSymbol
        ⟨true, alSet valPages "BTCUSDT" { psValidated with page := none }⟩
        "BTCUSDT" (osThirdOk 2)).1 = .ok p2
      ∧ pageCloseHandler ⟨true, valPages⟩ "BTCUSDT" osThirdOk =
        (p2, retryDelays.take 2) :=
  ⟨(unexpected_close_retry_schedule valPages "BTCUSDT" psValidated osAllFail
      (by decide) rfl rfl).1 (fun i _ => rfl),
   (unexpected_close_retry_schedule valPages "BTCUSDT" psValidated osThirdOk
      (by decide) rfl rfl).2 2 (by norm_num) (by decide)
      (fun j hj => by interval_cases j <;> decide)⟩
